import Mathlib

/-!
Shallow embedding of the wavesurfer.js regions plugin
(`src/dist/plugins/regions.js`) and proofs about its region geometry,
drag/resize update protocol, playback tracking, virtualization and
lifecycle management.

Modelling conventions:
* JavaScript numbers are modelled as exact rationals (`ℚ`); the geometry
  logic of the plugin is pure arithmetic and comparisons, so the rational
  model reproduces it faithfully on all inputs we reason about.
* `maxLength` defaults to `Infinity` in the source; we model it as
  `Option ℚ` where `none` stands for `Infinity` (every length is allowed).
* The source keyword `end` is not a legal Lean field name; the field is
  called `endTime` throughout (it embeds `this.end`).
* DOM side effects are modelled by explicit data: the rendered CSS
  percentages (`renderedLeft`/`renderedRight` set by `renderPosition`),
  a liveness flag for the element (`elementAlive`, set to `false` when
  `remove()` nulls and detaches it), and a count of live drag
  subscriptions (`activeSubscriptions`).
* Event emission is modelled by returning the list of events a method
  emits, in emission order.
-/

attribute [local semireducible] Rat.mul Rat.add Rat.sub Rat.inv

/-- Which bound a resize moves: the `side` argument of `_onUpdate`,
where the source uses the strings "start" and "end" (here `stop`). -/
inductive Side where
  | start
  | stop
deriving DecidableEq, Repr

/-- The region construction parameters (`RegionParams` in the source).
Omitted fields of the option object are `none`. The string id of the
source is abstracted to a number; the source guarantees uniqueness by
random generation or caller supply. Fields that only affect styling or
text content (`channelIdx`, `contentEditable`, `content`) play no role
in any claim and are omitted. -/
structure RegionParams where
  id : ℕ
  start : ℚ
  endTime : Option ℚ
  drag : Option Bool
  resize : Option Bool
  color : Option String
  minLength : Option ℚ
  maxLength : Option ℚ
deriving DecidableEq, Repr

/-- The mutable state of a `SingleRegion` instance. -/
structure Region where
  id : ℕ
  totalDuration : ℚ
  start : ℚ
  endTime : ℚ
  drag : Bool
  resize : Bool
  color : String
  minLength : ℚ
  /-- `none` models the default `Infinity`. -/
  maxLength : Option ℚ
  /-- Number of live `makeDraggable` subscriptions held in
  `this.subscriptions`. -/
  activeSubscriptions : ℕ
  /-- Whether `this.element` is still a live, attached DOM node;
  `remove()` detaches it and nulls the reference. -/
  elementAlive : Bool
  /-- The `left` CSS percentage last written by `renderPosition`. -/
  renderedLeft : ℚ
  /-- The `right` CSS percentage last written by `renderPosition`. -/
  renderedRight : ℚ
deriving DecidableEq, Repr

/-- `clampPosition(time)`: `Math.max(0, Math.min(this.totalDuration, time))`. -/
def clampPosition (totalDuration time : ℚ) : ℚ :=
  max 0 (min totalDuration time)

/-- `renderPosition()`: writes
`left = (start / totalDuration) * 100` percent and
`right = ((totalDuration - end) / totalDuration) * 100` percent. -/
def renderPosition (r : Region) : Region :=
  { r with
    renderedLeft := r.start / r.totalDuration * 100
    renderedRight := (r.totalDuration - r.endTime) / r.totalDuration * 100 }

/-- The `SingleRegion` constructor: clamps `start` and `end` into
`[0, totalDuration]` (with `end` defaulting to `start`), fills the
defaulted option fields, builds the element (two resize-handle drag
subscriptions when the region is not a marker and `resize` is on),
renders the position and wires the one drag subscription of
`initMouseEvents`. -/
def SingleRegion.make (params : RegionParams) (totalDuration : ℚ) : Region :=
  let start := clampPosition totalDuration params.start
  let endTime := clampPosition totalDuration (params.endTime.getD params.start)
  let resize := params.resize.getD true
  renderPosition
    { id := params.id
      totalDuration := totalDuration
      start := start
      endTime := endTime
      drag := params.drag.getD true
      resize := resize
      color := params.color.getD "rgba(0, 0, 0, 0.1)"
      minLength := params.minLength.getD 0
      maxLength := params.maxLength
      activeSubscriptions := (if start = endTime ∨ ¬resize then 0 else 2) + 1
      elementAlive := true
      renderedLeft := 0
      renderedRight := 0 }

/-- The events a `SingleRegion` can emit that the claims are about
(pointer-only events `click`, `over`, `leave`, `dblclick` are omitted). -/
inductive RegionEvent where
  | update (side : Option Side)
  | updateEnd
  | play
  | remove
deriving DecidableEq, Repr

/-- `length <= this.maxLength`, where `none` models `Infinity`. -/
def withinMaxLength (length : ℚ) : Option ℚ → Prop
  | none => True
  | some m => length ≤ m

instance : ∀ (m : Option ℚ) (length : ℚ), Decidable (withinMaxLength length m)
  | none, _ => isTrue trivial
  | some m, length => inferInstanceAs (Decidable (length ≤ m))

/-- The acceptance condition of `_onUpdate`: the candidate pair is
applied only when
`newStart >= 0 && newEnd <= totalDuration && newStart <= newEnd &&
 length >= minLength && length <= maxLength`. -/
def acceptUpdate (r : Region) (newStart newEnd : ℚ) : Prop :=
  0 ≤ newStart ∧ newEnd ≤ r.totalDuration ∧ newStart ≤ newEnd ∧
    r.minLength ≤ newEnd - newStart ∧ withinMaxLength (newEnd - newStart) r.maxLength

instance (r : Region) (newStart newEnd : ℚ) : Decidable (acceptUpdate r newStart newEnd) :=
  inferInstanceAs (Decidable (_ ∧ _ ∧ _ ∧ _ ∧ _))

/-- `_onUpdate(dx, side?)`. `hasParent` models `this.element.parentElement`
being non-null (the method returns immediately otherwise) and `width` is
the bounding-rectangle width of that parent. The pixel delta `dx` is
converted to `deltaSeconds = (dx / width) * totalDuration`; a missing
`side` shifts both bounds, `side = start` or `side = stop` shifts only
that bound; the result is applied, re-rendered and an `update` event
with the given side is emitted only when `acceptUpdate` holds. -/
def SingleRegion._onUpdate (r : Region) (hasParent : Bool) (dx width : ℚ)
    (side : Option Side) : Region × List RegionEvent :=
  if ¬hasParent then (r, [])
  else
    let deltaSeconds := dx / width * r.totalDuration
    let newStart := if side = none ∨ side = some Side.start then r.start + deltaSeconds else r.start
    let newEnd := if side = none ∨ side = some Side.stop then r.endTime + deltaSeconds else r.endTime
    if acceptUpdate r newStart newEnd then
      (renderPosition { r with start := newStart, endTime := newEnd },
        [RegionEvent.update side])
    else (r, [])

/-- `onMove(dx)`: a drag gesture; ignored unless `this.drag`. -/
def SingleRegion.onMove (r : Region) (hasParent : Bool) (dx width : ℚ) :
    Region × List RegionEvent :=
  if ¬r.drag then (r, []) else SingleRegion._onUpdate r hasParent dx width none

/-- `onResize(dx, side)`: a handle gesture; ignored unless `this.resize`. -/
def SingleRegion.onResize (r : Region) (hasParent : Bool) (dx width : ℚ) (side : Side) :
    Region × List RegionEvent :=
  if ¬r.resize then (r, []) else SingleRegion._onUpdate r hasParent dx width (some side)

/-- `play()`: unconditionally emits a `play` event. -/
def SingleRegion.play (r : Region) : List RegionEvent :=
  [RegionEvent.play]

/-- `remove()`: emits `remove`, calls every stored unsubscribe function,
detaches the element from the DOM and nulls the reference. -/
def SingleRegion.remove (r : Region) : Region × List RegionEvent :=
  ({ r with activeSubscriptions := 0, elementAlive := false },
    [RegionEvent.remove])

/-- `_setTotalDuration(totalDuration)`: overwrites `totalDuration` and
re-renders the position; `start` and `end` are not touched. -/
def SingleRegion._setTotalDuration (r : Region) (totalDuration : ℚ) : Region :=
  renderPosition { r with totalDuration := totalDuration }

/-- The option object of `setOptions`; omitted fields are `none`.
`content` only affects the text payload and is omitted. -/
structure RegionOptions where
  color : Option String
  drag : Option Bool
  start : Option ℚ
  endTime : Option ℚ
  id : Option ℕ
  resize : Option Bool
deriving DecidableEq, Repr

/-- The `if (options.color)` block of `setOptions`. -/
def setColorOpt (r : Region) (o : RegionOptions) : Region :=
  match o.color with
  | some c => { r with color := c }
  | none => r

/-- The `if (options.drag !== undefined)` block of `setOptions`. -/
def setDragOpt (r : Region) (o : RegionOptions) : Region :=
  match o.drag with
  | some d => { r with drag := d }
  | none => r

/-- The `if (options.start !== undefined || options.end !== undefined)`
block of `setOptions`: re-clamp both bounds into `[0, totalDuration]`
(a missing `end` follows the new `start` when the region was a marker,
the old `end` otherwise) and re-render. -/
def setBoundsOpt (r : Region) (o : RegionOptions) : Region :=
  if o.start.isSome ∨ o.endTime.isSome then
    let isMarker := r.start = r.endTime
    let newStart := clampPosition r.totalDuration (o.start.getD r.start)
    let newEnd := clampPosition r.totalDuration
      (o.endTime.getD (if isMarker then newStart else r.endTime))
    renderPosition { r with start := newStart, endTime := newEnd }
  else r

/-- The `if (options.id)` block of `setOptions`. -/
def setIdOpt (r : Region) (o : RegionOptions) : Region :=
  match o.id with
  | some i => { r with id := i }
  | none => r

/-- The `if (options.resize !== undefined && options.resize !== this.resize)`
block of `setOptions`: toggling `resize` on on a non-marker adds two
resize-handle subscriptions; `removeResizeHandles` only removes DOM
nodes, it does not unsubscribe. -/
def setResizeOpt (r : Region) (o : RegionOptions) : Region :=
  match o.resize with
  | some newResize =>
    if newResize ≠ r.resize then
      if newResize ∧ ¬(r.start = r.endTime) then
        { r with resize := newResize, activeSubscriptions := r.activeSubscriptions + 2 }
      else
        { r with resize := newResize }
    else r
  | none => r

/-- `setOptions(options)`: each present field updates independently, in
source order. -/
def SingleRegion.setOptions (r : Region) (o : RegionOptions) : Region :=
  setResizeOpt (setIdOpt (setBoundsOpt (setDragOpt (setColorOpt r o) o) o) o) o

/-- The collection-level events of `RegionsPlugin` that the claims are
about. -/
inductive PluginEvent where
  | regionCreated (r : Region)
  | regionIn (r : Region)
  | regionOut (r : Region)
  | regionRemoved (r : Region)
deriving DecidableEq, Repr

/-- The played-region predicate of the `timeupdate` handler in `onInit`:
`region.start <= currentTime &&
 (region.end === region.start ? region.start + 0.05 : region.end) >= currentTime`. -/
def isActive (r : Region) (currentTime : ℚ) : Bool :=
  decide (r.start ≤ currentTime) &&
    decide ((if r.endTime = r.start then r.start + 1/20 else r.endTime) ≥ currentTime)

/-- One `timeupdate` tick of the handler installed by `onInit`: filter
the collection for played regions, emit `region-in` for each played
region not already active, then `region-out` for each active region no
longer played, and replace the active set by the played set. Region
identity (`includes`, reference equality in the source) is modelled by
decidable equality of region states; ids keep distinct regions distinct. -/
def timeupdateStep (regions activeRegions : List Region) (currentTime : ℚ) :
    List PluginEvent × List Region :=
  let playedRegions := regions.filter (fun r => isActive r currentTime)
  ((playedRegions.filter (fun r => decide (r ∉ activeRegions))).map PluginEvent.regionIn ++
      (activeRegions.filter (fun r => decide (r ∉ playedRegions))).map PluginEvent.regionOut,
    playedRegions)

/-- The collection state of `RegionsPlugin`: `regions` is `this.regions`
(insertion order); `pending` holds regions constructed by `addRegion`
while the host duration was 0, each waiting on its one-shot `ready`
subscription. -/
structure PluginState where
  regions : List Region
  pending : List Region
deriving DecidableEq, Repr

/-- `saveRegion(region)`: push the region onto the collection and emit
`region-created` (virtualization, overlap avoidance and the per-region
subscriptions are modelled separately). -/
def saveRegion (st : PluginState) (r : Region) : PluginState × List PluginEvent :=
  ({ st with regions := st.regions ++ [r] }, [PluginEvent.regionCreated r])

/-- `addRegion(options)`: construct the region from the host duration;
when the duration is 0 (unknown, falsy) defer persistence to the `ready`
subscription, otherwise save immediately. Returns the region handle,
the new state and the emitted events. -/
def addRegion (st : PluginState) (params : RegionParams) (hostDuration : ℚ) :
    Region × PluginState × List PluginEvent :=
  let region := SingleRegion.make params hostDuration
  if hostDuration = 0 then
    (region, { st with pending := st.pending ++ [region] }, [])
  else
    (region, (saveRegion st region).1, (saveRegion st region).2)

/-- The host `ready` signal carrying the true duration: every pending
one-shot subscription fires once, calling `_setTotalDuration` and then
`saveRegion` on its region; the subscriptions are spent. -/
def onReady (st : PluginState) (trueDuration : ℚ) : PluginState × List PluginEvent :=
  let saved := st.pending.map (fun r => SingleRegion._setTotalDuration r trueDuration)
  ({ regions := st.regions ++ saved, pending := [] },
    saved.map PluginEvent.regionCreated)

/-- The `once("remove", ...)` handler installed by `saveRegion`:
unsubscribe the per-region subscriptions, drop the region from the
collection (`filter((reg) => reg !== region)`) and emit `region-removed`. -/
def handleRegionRemoved (st : PluginState) (r : Region) : PluginState × List PluginEvent :=
  ({ st with regions := st.regions.filter (fun reg => decide (reg ≠ r)) },
    [PluginEvent.regionRemoved r])

/-- The DOM mutation calls `renderIfVisible` can issue. -/
inductive DomOp where
  | appendChild
  | removeElement
deriving DecidableEq, Repr

/-- `Math.round((region.start / duration) * scrollWidth)`; Mathlib
`round` on `ℚ` is round-half-up, the behavior of `Math.round`. -/
def regionPixelStart (r : Region) (duration scrollWidth : ℚ) : ℤ :=
  round (r.start / duration * scrollWidth)

/-- `Math.round(((region.end - region.start) / duration) * scrollWidth) || 1`. -/
def regionPixelWidth (r : Region) (duration scrollWidth : ℚ) : ℤ :=
  let w := round ((r.endTime - r.start) / duration * scrollWidth)
  if w = 0 then 1 else w

/-- One run of the `renderIfVisible` closure of `virtualAppend`:
computes the rounded pixel start and width of the region, decides
`start + width > scrollLeft && start < scrollLeft + clientWidth`, and
unconditionally issues `appendChild` when visible and `element.remove()`
when not. Returns the resulting attachment state and the DOM calls
issued; note the source never consults the current attachment state. -/
def renderIfVisible (r : Region) (duration scrollWidth scrollLeft clientWidth : ℚ) :
    Bool × List DomOp :=
  let start := regionPixelStart r duration scrollWidth
  let width := regionPixelWidth r duration scrollWidth
  if (start : ℚ) + (width : ℚ) > scrollLeft ∧ (start : ℚ) < scrollLeft + clientWidth then
    (true, [DomOp.appendChild])
  else
    (false, [DomOp.removeElement])

/-- A region pixel interval `[pixelStart, pixelStart + pixelWidth)`
intersects the visible window `[scrollLeft, scrollLeft + clientWidth)`. -/
def intersectsVisibleWindow (pixelStart pixelWidth : ℤ) (scrollLeft clientWidth : ℚ) : Prop :=
  ∃ x : ℚ, (pixelStart : ℚ) ≤ x ∧ x < (pixelStart : ℚ) + (pixelWidth : ℚ) ∧
    scrollLeft ≤ x ∧ x < scrollLeft + clientWidth

/-- A heap model for the aliasing behavior of `getRegions`: `arrays` is
a store of JavaScript array objects addressed by reference, and
`regionsRef` is the reference held in `this.regions`. -/
structure RegionsPluginMem where
  arrays : List (List Region)
  regionsRef : ℕ
deriving DecidableEq, Repr

/-- `getRegions()`: `return this.regions` — the method returns the
reference to the live internal array, not a copy. -/
def getRegions (st : RegionsPluginMem) : ℕ :=
  st.regionsRef

/-- Dereference an array in the store. -/
def readArray (st : RegionsPluginMem) (ref : ℕ) : List Region :=
  st.arrays.getD ref []

/-- The collection the manager itself operates on (`this.regions`). -/
def internalRegions (st : RegionsPluginMem) : List Region :=
  readArray st st.regionsRef

/-- A caller-side mutation performed through an array reference
(for example `push` or `splice` on the value `getRegions()` returned). -/
def writeThroughRef (st : RegionsPluginMem) (ref : ℕ) (f : List Region → List Region) :
    RegionsPluginMem :=
  { st with arrays := st.arrays.set ref (f (readArray st ref)) }

/-- The candidate new `start` computed inside `_onUpdate`:
`!side || side === "start" ? this.start + deltaSeconds : this.start`. -/
def candidateStart (r : Region) (dx width : ℚ) (side : Option Side) : ℚ :=
  if side = none ∨ side = some Side.start then r.start + dx / width * r.totalDuration else r.start

/-- The candidate new `end` computed inside `_onUpdate`:
`!side || side === "end" ? this.end + deltaSeconds : this.end`. -/
def candidateEnd (r : Region) (dx width : ℚ) (side : Option Side) : ℚ :=
  if side = none ∨ side = some Side.stop then r.endTime + dx / width * r.totalDuration else r.endTime

theorem onUpdate_eq (r : Region) (dx width : ℚ) (side : Option Side) :
    SingleRegion._onUpdate r true dx width side =
      if acceptUpdate r (candidateStart r dx width side) (candidateEnd r dx width side) then
        (renderPosition { r with
            start := candidateStart r dx width side
            endTime := candidateEnd r dx width side },
          [RegionEvent.update side])
      else (r, []) := by
  simp [SingleRegion._onUpdate, candidateStart, candidateEnd]

/-- The full geometry invariant of the specification:
`0 ≤ start ≤ end ≤ totalDuration` and `minLength ≤ end - start ≤ maxLength`. -/
def regionInvariant (r : Region) : Prop :=
  0 ≤ r.start ∧ r.start ≤ r.endTime ∧ r.endTime ≤ r.totalDuration ∧
    r.minLength ≤ r.endTime - r.start ∧ withinMaxLength (r.endTime - r.start) r.maxLength

instance (r : Region) : Decidable (regionInvariant r) :=
  inferInstanceAs (Decidable (_ ∧ _ ∧ _ ∧ _ ∧ _))

/-- The part of the invariant the constructor and `setOptions` actually
enforce: each bound individually clamped into `[0, totalDuration]`. -/
def weakInvariant (r : Region) : Prop :=
  0 ≤ r.start ∧ r.start ≤ r.totalDuration ∧ 0 ≤ r.endTime ∧ r.endTime ≤ r.totalDuration

instance (r : Region) : Decidable (weakInvariant r) :=
  inferInstanceAs (Decidable (_ ∧ _ ∧ _ ∧ _))

theorem clampPosition_nonneg (totalDuration t : ℚ) : 0 ≤ clampPosition totalDuration t :=
  le_max_left 0 _

theorem clampPosition_le (totalDuration t : ℚ) (h : 0 ≤ totalDuration) :
    clampPosition totalDuration t ≤ totalDuration :=
  max_le h (min_le_left _ _)

theorem clampPosition_zero (t : ℚ) : clampPosition 0 t = 0 :=
  max_eq_left (min_le_left 0 t)

/-- A concrete region `[2, 4]` over a 10 second duration. -/
def regionTwoFour : Region :=
  SingleRegion.make
    { id := 1, start := 2, endTime := some 4, drag := none, resize := none,
      color := none, minLength := none, maxLength := none } 10

/-- A concrete marker at `t = 5` over a 10 second duration. -/
def markerFive : Region :=
  SingleRegion.make
    { id := 2, start := 5, endTime := none, drag := none, resize := none,
      color := none, minLength := none, maxLength := none } 10


theorem weakInvariant_congr {a b : Region}
    (h : a.start = b.start ∧ a.endTime = b.endTime ∧ a.totalDuration = b.totalDuration)
    (hb : weakInvariant b) : weakInvariant a := by
  unfold weakInvariant
  rw [h.1, h.2.1, h.2.2]
  exact hb

theorem make_weakInvariant (params : RegionParams) (totalDuration : ℚ)
    (h : 0 ≤ totalDuration) : weakInvariant (SingleRegion.make params totalDuration) := by
  simp only [SingleRegion.make, renderPosition, weakInvariant]
  exact ⟨clampPosition_nonneg _ _, clampPosition_le _ _ h,
    clampPosition_nonneg _ _, clampPosition_le _ _ h⟩

theorem setColorOpt_geometry (r : Region) (o : RegionOptions) :
    (setColorOpt r o).start = r.start ∧ (setColorOpt r o).endTime = r.endTime ∧
      (setColorOpt r o).totalDuration = r.totalDuration := by
  unfold setColorOpt
  cases o.color <;> simp

theorem setDragOpt_geometry (r : Region) (o : RegionOptions) :
    (setDragOpt r o).start = r.start ∧ (setDragOpt r o).endTime = r.endTime ∧
      (setDragOpt r o).totalDuration = r.totalDuration := by
  unfold setDragOpt
  cases o.drag <;> simp

theorem setIdOpt_geometry (r : Region) (o : RegionOptions) :
    (setIdOpt r o).start = r.start ∧ (setIdOpt r o).endTime = r.endTime ∧
      (setIdOpt r o).totalDuration = r.totalDuration := by
  unfold setIdOpt
  cases o.id <;> simp

theorem setResizeOpt_geometry (r : Region) (o : RegionOptions) :
    (setResizeOpt r o).start = r.start ∧ (setResizeOpt r o).endTime = r.endTime ∧
      (setResizeOpt r o).totalDuration = r.totalDuration := by
  unfold setResizeOpt
  cases o.resize
  · simp
  · dsimp only
    split_ifs <;> simp

theorem setBoundsOpt_weakInvariant (r : Region) (o : RegionOptions)
    (h : weakInvariant r) : weakInvariant (setBoundsOpt r o) := by
  have htot : 0 ≤ r.totalDuration := le_trans h.1 h.2.1
  unfold setBoundsOpt
  split
  · simp only [renderPosition, weakInvariant]
    exact ⟨clampPosition_nonneg _ _, clampPosition_le _ _ htot,
      clampPosition_nonneg _ _, clampPosition_le _ _ htot⟩
  · exact h

theorem setOptions_weakInvariant (r : Region) (o : RegionOptions)
    (h : weakInvariant r) : weakInvariant (SingleRegion.setOptions r o) := by
  unfold SingleRegion.setOptions
  have hc : weakInvariant (setColorOpt r o) := weakInvariant_congr (setColorOpt_geometry r o) h
  have hd : weakInvariant (setDragOpt (setColorOpt r o) o) :=
    weakInvariant_congr (setDragOpt_geometry _ o) hc
  have hb := setBoundsOpt_weakInvariant _ o hd
  have hi : weakInvariant (setIdOpt (setBoundsOpt (setDragOpt (setColorOpt r o) o) o) o) :=
    weakInvariant_congr (setIdOpt_geometry _ o) hb
  exact weakInvariant_congr (setResizeOpt_geometry _ o) hi

/-- Parameters asking for a region with `start = 5` and `end = 2`. -/
def paramsBackwards : RegionParams :=
  { id := 3, start := 5, endTime := some 2, drag := none, resize := none,
    color := none, minLength := none, maxLength := none }

/-- Parameters asking for a region `[1, 2]`. -/
def paramsOneTwo : RegionParams :=
  { id := 4, start := 1, endTime := some 2, drag := none, resize := none,
    color := none, minLength := none, maxLength := none }

/-- An option object with every field absent. -/
def optsNone : RegionOptions :=
  { color := none, drag := none, start := none, endTime := none, id := none, resize := none }

/-- C1 counterexample: the constructor does not establish the claimed
invariant. Constructing a region over a 10 second duration with
requested `start = 5` and `end = 2` clamps each bound separately and
yields `start = 5 > end = 2`, so `start ≤ end` fails right after
construction. -/
theorem c1_counterexample :
    ¬ ((SingleRegion.make paramsBackwards 10).start ≤
        (SingleRegion.make paramsBackwards 10).endTime) := by
  decide

/-- C1 (amended): construction and `setOptions` only clamp each bound
separately into `[0, totalDuration]` (the weak invariant); they enforce
neither `start ≤ end` nor the `minLength`/`maxLength` bounds. The full
geometry invariant `0 ≤ start ≤ end ≤ totalDuration` and
`minLength ≤ end - start ≤ maxLength` is established by every accepted
drag/resize update (so it holds after any sequence of accepted updates),
and violating candidates are rejected rather than clamped. -/
theorem c1_clamped_construction_and_full_invariant_after_accepted_updates
    (params : RegionParams) (totalDuration : ℚ) (r : Region) (o : RegionOptions)
    (dx width : ℚ) (side : Option Side)
    (htot : 0 ≤ totalDuration) (hweak : weakInvariant r) :
    weakInvariant (SingleRegion.make params totalDuration) ∧
    weakInvariant (SingleRegion.setOptions r o) ∧
    ((SingleRegion._onUpdate r true dx width side).2 ≠ [] →
      regionInvariant (SingleRegion._onUpdate r true dx width side).1) := by
  refine ⟨make_weakInvariant params totalDuration htot, setOptions_weakInvariant r o hweak, ?_⟩
  intro hne
  rw [onUpdate_eq] at hne ⊢
  by_cases hacc : acceptUpdate r (candidateStart r dx width side) (candidateEnd r dx width side)
  · rw [if_pos hacc]
    obtain ⟨h1, h2, h3, h4, h5⟩ := hacc
    simp only [regionInvariant, renderPosition]
    exact ⟨h1, h3, h2, h4, h5⟩
  · rw [if_neg hacc] at hne
    exact absurd rfl hne

/-- C1 witness: the amended statement at concrete inputs. -/
theorem c1_witness :
    0 ≤ (10:ℚ) ∧ weakInvariant regionTwoFour ∧
      (weakInvariant (SingleRegion.make paramsOneTwo 10) ∧
        weakInvariant (SingleRegion.setOptions regionTwoFour optsNone) ∧
        ((SingleRegion._onUpdate regionTwoFour true 10 100 none).2 ≠ [] →
          regionInvariant (SingleRegion._onUpdate regionTwoFour true 10 100 none).1)) :=
  ⟨by decide, by decide,
    c1_clamped_construction_and_full_invariant_after_accepted_updates
      paramsOneTwo 10 regionTwoFour optsNone 10 100 none (by decide) (by decide)⟩

/-- C2: a drag or resize update whose candidate pair violates any bound
(`newStart < 0`, `newEnd > totalDuration`, `newStart > newEnd`, or
length outside `[minLength, maxLength]`) is rejected atomically: the
region state is exactly unchanged and no `update` event is emitted. -/
theorem c2_violating_update_rejected_atomically
    (r : Region) (dx width : ℚ) (side : Option Side)
    (hviol : candidateStart r dx width side < 0 ∨
      r.totalDuration < candidateEnd r dx width side ∨
      candidateEnd r dx width side < candidateStart r dx width side ∨
      candidateEnd r dx width side - candidateStart r dx width side < r.minLength ∨
      ¬ withinMaxLength (candidateEnd r dx width side - candidateStart r dx width side)
          r.maxLength) :
    SingleRegion._onUpdate r true dx width side = (r, []) := by
  rw [onUpdate_eq, if_neg]
  rintro ⟨h1, h2, h3, h4, h5⟩
  rcases hviol with h | h | h | h | h
  · exact absurd h1 (not_le.mpr h)
  · exact absurd h2 (not_le.mpr h)
  · exact absurd h3 (not_le.mpr h)
  · exact absurd h4 (not_le.mpr h)
  · exact h h5

/-- C2 witness: a 100 pixel drag on the `[2, 4]` region over a 10 second
duration rendered at 10 pixels would move `end` to 104 > 10, so the
whole update is discarded and no event fires. -/
theorem c2_witness :
    regionTwoFour.totalDuration < candidateEnd regionTwoFour 100 10 none ∧
      SingleRegion._onUpdate regionTwoFour true 100 10 none = (regionTwoFour, []) :=
  ⟨by decide,
    c2_violating_update_rejected_atomically regionTwoFour 100 10 none
      (Or.inr (Or.inl (by decide)))⟩

/-- C3: with a rendered parent of width `width`, `_onUpdate` converts
the pixel delta to `deltaSeconds = (dx / width) * totalDuration`; an
omitted `side` shifts both bounds by `deltaSeconds` (a move), side
`start` or `end` shifts only that bound (a resize); and an accepted
candidate is applied, the position re-rendered from the new bounds, and
a single `update` event carrying the `side` argument is emitted. -/
theorem c3_onUpdate_delta_sides_render_and_event
    (r : Region) (dx width : ℚ) (side : Option Side)
    (hw : 0 < width)
    (hacc : acceptUpdate r (candidateStart r dx width side) (candidateEnd r dx width side)) :
    SingleRegion._onUpdate r true dx width side =
      (renderPosition { r with
          start := candidateStart r dx width side
          endTime := candidateEnd r dx width side },
        [RegionEvent.update side]) ∧
    candidateStart r dx width side =
      (match side with
        | none => r.start + dx / width * r.totalDuration
        | some Side.start => r.start + dx / width * r.totalDuration
        | some Side.stop => r.start) ∧
    candidateEnd r dx width side =
      (match side with
        | none => r.endTime + dx / width * r.totalDuration
        | some Side.start => r.endTime
        | some Side.stop => r.endTime + dx / width * r.totalDuration) ∧
    (SingleRegion._onUpdate r true dx width side).1.renderedLeft =
      candidateStart r dx width side / r.totalDuration * 100 ∧
    (SingleRegion._onUpdate r true dx width side).1.renderedRight =
      (r.totalDuration - candidateEnd r dx width side) / r.totalDuration * 100 := by
  have h1 : SingleRegion._onUpdate r true dx width side =
      (renderPosition { r with
          start := candidateStart r dx width side
          endTime := candidateEnd r dx width side },
        [RegionEvent.update side]) := by
    rw [onUpdate_eq, if_pos hacc]
  refine ⟨h1, ?_, ?_, ?_, ?_⟩
  · rcases side with _ | s
    · simp [candidateStart]
    · cases s <;> simp [candidateStart]
  · rcases side with _ | s
    · simp [candidateEnd]
    · cases s <;> simp [candidateEnd]
  · rw [h1]; simp [renderPosition]
  · rw [h1]; simp [renderPosition]

/-- C3 witness: a 10 pixel move at parent width 100 over a 10 second
duration shifts the `[2, 4]` region by 1 second to `[3, 5]`. -/
theorem c3_witness :
    0 < (100:ℚ) ∧
    acceptUpdate regionTwoFour (candidateStart regionTwoFour 10 100 none)
      (candidateEnd regionTwoFour 10 100 none) ∧
    (SingleRegion._onUpdate regionTwoFour true 10 100 none =
        (renderPosition { regionTwoFour with
            start := candidateStart regionTwoFour 10 100 none
            endTime := candidateEnd regionTwoFour 10 100 none },
          [RegionEvent.update none]) ∧
      candidateStart regionTwoFour 10 100 none =
        regionTwoFour.start + 10 / 100 * regionTwoFour.totalDuration ∧
      candidateEnd regionTwoFour 10 100 none =
        regionTwoFour.endTime + 10 / 100 * regionTwoFour.totalDuration ∧
      (SingleRegion._onUpdate regionTwoFour true 10 100 none).1.renderedLeft =
        candidateStart regionTwoFour 10 100 none / regionTwoFour.totalDuration * 100 ∧
      (SingleRegion._onUpdate regionTwoFour true 10 100 none).1.renderedRight =
        (regionTwoFour.totalDuration - candidateEnd regionTwoFour 10 100 none) /
          regionTwoFour.totalDuration * 100) :=
  ⟨by decide, by decide,
    c3_onUpdate_delta_sides_render_and_event regionTwoFour 10 100 none
      (by decide) (by decide)⟩

/-- C10: a region constructed while the host duration is 0 has both
bounds clamped to 0 regardless of the requested parameters, and
`_setTotalDuration` only overwrites `totalDuration` and re-renders; it
never restores the requested bounds, so the deferred region is persisted
as a zero-width marker at time 0. -/
theorem c10_deferred_construction_clamps_to_zero
    (params : RegionParams) (r : Region) (d : ℚ) :
    (SingleRegion.make params 0).start = 0 ∧
    (SingleRegion.make params 0).endTime = 0 ∧
    (SingleRegion._setTotalDuration r d).start = r.start ∧
    (SingleRegion._setTotalDuration r d).endTime = r.endTime ∧
    (SingleRegion._setTotalDuration r d).totalDuration = d ∧
    (SingleRegion._setTotalDuration (SingleRegion.make params 0) d).start = 0 ∧
    (SingleRegion._setTotalDuration (SingleRegion.make params 0) d).endTime = 0 := by
  have hs : (SingleRegion.make params 0).start = 0 := by
    simp [SingleRegion.make, renderPosition, clampPosition_zero]
  have he : (SingleRegion.make params 0).endTime = 0 := by
    simp [SingleRegion.make, renderPosition, clampPosition_zero]
  refine ⟨hs, he, ?_, ?_, ?_, ?_, ?_⟩ <;>
    simp [SingleRegion._setTotalDuration, renderPosition, hs, he]

theorem regionIn_injective : Function.Injective PluginEvent.regionIn := by
  intro a b h
  cases h
  rfl

theorem regionOut_injective : Function.Injective PluginEvent.regionOut := by
  intro a b h
  cases h
  rfl

/-- C4: on each `timeupdate` tick the handler emits `region-in` exactly
once for each region in the new active (played) set that was not in the
previous active set, `region-out` exactly once for each region of the
previous active set no longer played, and nothing for regions whose
membership is unchanged; concretely, with duration 10 and the region
`[2, 4]`, the tick sequence 1, 3, 5 emits `region-in` once at the 3
tick and `region-out` once at the 5 tick. -/
theorem c4_region_in_out_exactly_once
    (regions activeRegions : List Region) (t : ℚ) (r : Region)
    (hnr : regions.Nodup) (hna : activeRegions.Nodup) :
    ((timeupdateStep regions activeRegions t).1.count (PluginEvent.regionIn r) =
      if r ∈ (timeupdateStep regions activeRegions t).2 ∧ r ∉ activeRegions then 1 else 0) ∧
    ((timeupdateStep regions activeRegions t).1.count (PluginEvent.regionOut r) =
      if r ∈ activeRegions ∧ r ∉ (timeupdateStep regions activeRegions t).2 then 1 else 0) ∧
    timeupdateStep [regionTwoFour] [] 1 = ([], []) ∧
    timeupdateStep [regionTwoFour] [] 3 = ([PluginEvent.regionIn regionTwoFour], [regionTwoFour]) ∧
    timeupdateStep [regionTwoFour] [regionTwoFour] 5 =
      ([PluginEvent.regionOut regionTwoFour], []) := by
  have hnp : (regions.filter (fun x => isActive x t)).Nodup := hnr.filter _
  refine ⟨?_, ?_, by decide, by decide, by decide⟩
  · simp only [timeupdateStep, List.count_append]
    have hzero :
        ((activeRegions.filter
            (fun x => decide (x ∉ regions.filter (fun y => isActive y t)))).map
          PluginEvent.regionOut).count (PluginEvent.regionIn r) = 0 := by
      apply List.count_eq_zero_of_not_mem
      simp [List.mem_map]
    rw [hzero, Nat.add_zero, List.count_map_of_injective _ _ regionIn_injective]
    by_cases hA : r ∈ activeRegions
    · have hnm : r ∉ (regions.filter (fun x => isActive x t)).filter
          (fun x => decide (x ∉ activeRegions)) := by
        simp [List.mem_filter, hA]
      rw [List.count_eq_zero_of_not_mem hnm]
      simp [hA]
    · rw [List.count_filter (by simpa using hA), List.count_eq_of_nodup hnp]
      simp [hA]
  · simp only [timeupdateStep, List.count_append]
    have hzero :
        (((regions.filter (fun y => isActive y t)).filter
            (fun x => decide (x ∉ activeRegions))).map
          PluginEvent.regionIn).count (PluginEvent.regionOut r) = 0 := by
      apply List.count_eq_zero_of_not_mem
      simp [List.mem_map]
    rw [hzero, Nat.zero_add, List.count_map_of_injective _ _ regionOut_injective]
    by_cases hP : r ∈ regions.filter (fun x => isActive x t)
    · have hnm : r ∉ activeRegions.filter
          (fun x => decide (x ∉ regions.filter (fun y => isActive y t))) := by
        intro hmem
        exact (of_decide_eq_true (List.mem_filter.mp hmem).2) hP
      rw [List.count_eq_zero_of_not_mem hnm, if_neg (fun hc => hc.2 hP)]
    · rw [List.count_filter (by exact decide_eq_true hP), List.count_eq_of_nodup hna]
      simp [hP]

/-- C4 witness: the tick at time 3 with previous active set empty. -/
theorem c4_witness :
    ([regionTwoFour] : List Region).Nodup ∧ ([] : List Region).Nodup ∧
      (((timeupdateStep [regionTwoFour] [] 3).1.count (PluginEvent.regionIn regionTwoFour) =
        if regionTwoFour ∈ (timeupdateStep [regionTwoFour] [] 3).2 ∧
            regionTwoFour ∉ ([] : List Region) then 1 else 0) ∧
      ((timeupdateStep [regionTwoFour] [] 3).1.count (PluginEvent.regionOut regionTwoFour) =
        if regionTwoFour ∈ ([] : List Region) ∧
            regionTwoFour ∉ (timeupdateStep [regionTwoFour] [] 3).2 then 1 else 0) ∧
      timeupdateStep [regionTwoFour] [] 1 = ([], []) ∧
      timeupdateStep [regionTwoFour] [] 3 =
        ([PluginEvent.regionIn regionTwoFour], [regionTwoFour]) ∧
      timeupdateStep [regionTwoFour] [regionTwoFour] 5 =
        ([PluginEvent.regionOut regionTwoFour], [])) :=
  ⟨by decide, by decide,
    c4_region_in_out_exactly_once [regionTwoFour] [] 3 regionTwoFour (by decide) (by decide)⟩

/-- C5: a collection member is in the played (active) set of a tick at
time `t` exactly when `start ≤ t ≤ end` for a proper region
(`end > start`), and exactly when `start ≤ t ≤ start + 0.05` for a
marker (`end = start`); in particular the marker at `t = 5` is active
at `t = 5.03` and inactive at `t = 5.06`. -/
theorem c5_active_iff_interval_or_marker_window
    (regions activeRegions : List Region) (r : Region) (t : ℚ) (hmem : r ∈ regions) :
    (r.start < r.endTime →
      (r ∈ (timeupdateStep regions activeRegions t).2 ↔ r.start ≤ t ∧ t ≤ r.endTime)) ∧
    (r.endTime = r.start →
      (r ∈ (timeupdateStep regions activeRegions t).2 ↔ r.start ≤ t ∧ t ≤ r.start + 1/20)) ∧
    isActive markerFive (503/100) = true ∧ isActive markerFive (253/50) = false := by
  refine ⟨?_, ?_, by decide, by decide⟩
  · intro hlt
    have hne : ¬ (r.endTime = r.start) := fun h => absurd hlt (by rw [h]; exact lt_irrefl _)
    simp [timeupdateStep, List.mem_filter, hmem, isActive, hne, ge_iff_le]
  · intro heq
    simp [timeupdateStep, List.mem_filter, hmem, isActive, heq, ge_iff_le]

/-- C5 witness: the region `[2, 4]` at tick time 3. -/
theorem c5_witness :
    regionTwoFour ∈ [regionTwoFour] ∧
      ((regionTwoFour.start < regionTwoFour.endTime →
        (regionTwoFour ∈ (timeupdateStep [regionTwoFour] [] 3).2 ↔
          regionTwoFour.start ≤ 3 ∧ (3:ℚ) ≤ regionTwoFour.endTime)) ∧
      (regionTwoFour.endTime = regionTwoFour.start →
        (regionTwoFour ∈ (timeupdateStep [regionTwoFour] [] 3).2 ↔
          regionTwoFour.start ≤ 3 ∧ (3:ℚ) ≤ regionTwoFour.start + 1/20)) ∧
      isActive markerFive (503/100) = true ∧ isActive markerFive (253/50) = false) :=
  ⟨by decide,
    c5_active_iff_interval_or_marker_window [regionTwoFour] [] regionTwoFour 3 (by decide)⟩

/-- A plugin state with no regions and no pending regions. -/
def emptyPluginState : PluginState :=
  { regions := [], pending := [] }

/-- C6: `addRegion` called while the host duration is 0 returns the
region handle synchronously without making it a collection member; the
later `ready` signal carrying the true duration sets the duration
context of the region to it and persists the region into the collection
exactly once, emitting the normal `region-created` persistence event,
and spends the pending subscription. -/
theorem c6_deferred_persistence_exactly_once
    (st : PluginState) (params : RegionParams) (d : ℚ)
    (hpend : st.pending = [])
    (hfresh : SingleRegion._setTotalDuration (SingleRegion.make params 0) d ∉ st.regions) :
    (addRegion st params 0).1 = SingleRegion.make params 0 ∧
    (addRegion st params 0).2.1.regions = st.regions ∧
    ((onReady (addRegion st params 0).2.1 d).1.regions.count
        (SingleRegion._setTotalDuration (SingleRegion.make params 0) d) = 1) ∧
    (SingleRegion._setTotalDuration (SingleRegion.make params 0) d).totalDuration = d ∧
    (onReady (addRegion st params 0).2.1 d).2 =
      [PluginEvent.regionCreated
        (SingleRegion._setTotalDuration (SingleRegion.make params 0) d)] ∧
    (onReady (addRegion st params 0).2.1 d).1.pending = [] := by
  have hadd : addRegion st params 0 =
      (SingleRegion.make params 0,
        { st with pending := st.pending ++ [SingleRegion.make params 0] }, []) := by
    unfold addRegion
    rw [if_pos rfl]
  refine ⟨by rw [hadd], by rw [hadd], ?_, ?_, ?_, ?_⟩
  · rw [hadd]
    simp [onReady, hpend, List.count_append, List.count_eq_zero_of_not_mem hfresh]
  · simp [SingleRegion._setTotalDuration, renderPosition]
  · rw [hadd]
    simp [onReady, hpend]
  · rw [hadd]
    simp [onReady]

/-- C6 witness: `addRegion({start: 1, end: 2})` at duration 0 followed
by `ready` carrying duration 10. -/
theorem c6_witness :
    emptyPluginState.pending = [] ∧
    SingleRegion._setTotalDuration (SingleRegion.make paramsOneTwo 0) 10 ∉
      emptyPluginState.regions ∧
    ((addRegion emptyPluginState paramsOneTwo 0).1 = SingleRegion.make paramsOneTwo 0 ∧
      (addRegion emptyPluginState paramsOneTwo 0).2.1.regions = emptyPluginState.regions ∧
      ((onReady (addRegion emptyPluginState paramsOneTwo 0).2.1 10).1.regions.count
          (SingleRegion._setTotalDuration (SingleRegion.make paramsOneTwo 0) 10) = 1) ∧
      (SingleRegion._setTotalDuration (SingleRegion.make paramsOneTwo 0) 10).totalDuration = 10 ∧
      (onReady (addRegion emptyPluginState paramsOneTwo 0).2.1 10).2 =
        [PluginEvent.regionCreated
          (SingleRegion._setTotalDuration (SingleRegion.make paramsOneTwo 0) 10)] ∧
      (onReady (addRegion emptyPluginState paramsOneTwo 0).2.1 10).1.pending = []) :=
  ⟨rfl, by decide,
    c6_deferred_persistence_exactly_once emptyPluginState paramsOneTwo 10 rfl (by decide)⟩

theorem renderIfVisible_eq (r : Region) (duration scrollWidth scrollLeft clientWidth : ℚ) :
    renderIfVisible r duration scrollWidth scrollLeft clientWidth =
      if ((regionPixelStart r duration scrollWidth : ℚ) +
            (regionPixelWidth r duration scrollWidth : ℚ) > scrollLeft ∧
          (regionPixelStart r duration scrollWidth : ℚ) < scrollLeft + clientWidth)
      then (true, [DomOp.appendChild]) else (false, [DomOp.removeElement]) := rfl

theorem regionPixelWidth_one_le (r : Region) (duration scrollWidth : ℚ)
    (hd : 0 < duration) (hse : r.start ≤ r.endTime) (hsw : 0 ≤ scrollWidth) :
    1 ≤ regionPixelWidth r duration scrollWidth := by
  unfold regionPixelWidth
  have hnn : 0 ≤ (r.endTime - r.start) / duration * scrollWidth :=
    mul_nonneg (div_nonneg (by linarith) hd.le) hsw
  have h0 : 0 ≤ round ((r.endTime - r.start) / duration * scrollWidth) := by
    rw [round_eq]
    exact Int.le_floor.mpr (by push_cast; linarith)
  show 1 ≤ if round ((r.endTime - r.start) / duration * scrollWidth) = 0 then 1
    else round ((r.endTime - r.start) / duration * scrollWidth)
  split_ifs with hz
  · exact le_refl 1
  · omega

/-- The two DOM calls issued when the `scroll` handler re-runs
`renderIfVisible` with unchanged scroll state: the run issued on
creation followed by the identical recomputation. -/
def renderIfVisibleTwice (r : Region) (duration scrollWidth scrollLeft clientWidth : ℚ) :
    List DomOp :=
  (renderIfVisible r duration scrollWidth scrollLeft clientWidth).2 ++
    (renderIfVisible r duration scrollWidth scrollLeft clientWidth).2

/-- C7 counterexample: the no-churn part of the claim is false. The
region `[2, 4]` (duration 10, scroll width 1000, scroll left 0, client
width 500) is visible, so the first recomputation attaches it; re-running
the recomputation with unchanged scroll state issues `appendChild`
again — the source calls `container.appendChild(element)` unconditionally
whenever the region is visible (and `element.remove()` whenever it is
not), never consulting the current attachment state, so recomputation is
not free of DOM operations. -/
theorem c7_counterexample :
    (renderIfVisible regionTwoFour 10 1000 0 500).1 = true ∧
    renderIfVisibleTwice regionTwoFour 10 1000 0 500 =
      [DomOp.appendChild, DomOp.appendChild] := by
  decide

/-- C7 (amended): the recomputation attaches the region exactly when its
rounded pixel interval intersects the visible window
`[scrollLeft, scrollLeft + clientWidth)` and detaches it otherwise; the
resulting attachment state depends only on the current scroll state, so
recomputation with unchanged scroll state is idempotent on the
attachment state — but each run re-issues its `appendChild` or
`element.remove()` DOM call unconditionally. -/
theorem c7_attach_iff_intersects_visible_window
    (r : Region) (duration scrollWidth scrollLeft clientWidth : ℚ)
    (hd : 0 < duration) (hcw : 0 < clientWidth) (hse : r.start ≤ r.endTime)
    (hsw : 0 ≤ scrollWidth) :
    ((renderIfVisible r duration scrollWidth scrollLeft clientWidth).1 = true ↔
      intersectsVisibleWindow (regionPixelStart r duration scrollWidth)
        (regionPixelWidth r duration scrollWidth) scrollLeft clientWidth) ∧
    ((renderIfVisible r duration scrollWidth scrollLeft clientWidth).1 = false ↔
      ¬ intersectsVisibleWindow (regionPixelStart r duration scrollWidth)
        (regionPixelWidth r duration scrollWidth) scrollLeft clientWidth) ∧
    ((renderIfVisible r duration scrollWidth scrollLeft clientWidth).2 =
      if (renderIfVisible r duration scrollWidth scrollLeft clientWidth).1
      then [DomOp.appendChild] else [DomOp.removeElement]) := by
  have hw1 : 1 ≤ regionPixelWidth r duration scrollWidth :=
    regionPixelWidth_one_le r duration scrollWidth hd hse hsw
  have hwq : (1:ℚ) ≤ (regionPixelWidth r duration scrollWidth : ℚ) := by exact_mod_cast hw1
  have hiff : ((regionPixelStart r duration scrollWidth : ℚ) +
        (regionPixelWidth r duration scrollWidth : ℚ) > scrollLeft ∧
      (regionPixelStart r duration scrollWidth : ℚ) < scrollLeft + clientWidth) ↔
      intersectsVisibleWindow (regionPixelStart r duration scrollWidth)
        (regionPixelWidth r duration scrollWidth) scrollLeft clientWidth := by
    constructor
    · rintro ⟨h1, h2⟩
      refine ⟨max (regionPixelStart r duration scrollWidth : ℚ) scrollLeft,
        le_max_left _ _, ?_, le_max_right _ _, ?_⟩
      · rcases max_cases (regionPixelStart r duration scrollWidth : ℚ) scrollLeft with
          ⟨hm, _⟩ | ⟨hm, _⟩ <;> rw [hm] <;> linarith
      · rcases max_cases (regionPixelStart r duration scrollWidth : ℚ) scrollLeft with
          ⟨hm, _⟩ | ⟨hm, _⟩ <;> rw [hm] <;> linarith
    · rintro ⟨x, hx1, hx2, hx3, hx4⟩
      constructor <;> linarith
  by_cases hc : ((regionPixelStart r duration scrollWidth : ℚ) +
      (regionPixelWidth r duration scrollWidth : ℚ) > scrollLeft ∧
    (regionPixelStart r duration scrollWidth : ℚ) < scrollLeft + clientWidth)
  · have h1 : renderIfVisible r duration scrollWidth scrollLeft clientWidth =
        (true, [DomOp.appendChild]) := by
      rw [renderIfVisible_eq, if_pos hc]
    rw [h1]
    exact ⟨iff_of_true rfl (hiff.mp hc),
      iff_of_false (by simp) (not_not_intro (hiff.mp hc)), by simp⟩
  · have h1 : renderIfVisible r duration scrollWidth scrollLeft clientWidth =
        (false, [DomOp.removeElement]) := by
      rw [renderIfVisible_eq, if_neg hc]
    rw [h1]
    have hni : ¬ intersectsVisibleWindow (regionPixelStart r duration scrollWidth)
        (regionPixelWidth r duration scrollWidth) scrollLeft clientWidth :=
      fun hint => hc (hiff.mpr hint)
    exact ⟨iff_of_false (by simp) hni, iff_of_true rfl hni, by simp⟩

/-- C7 witness: the amended statement at the inputs of the
counterexample run. -/
theorem c7_witness :
    0 < (10:ℚ) ∧ 0 < (500:ℚ) ∧ regionTwoFour.start ≤ regionTwoFour.endTime ∧
    0 ≤ (1000:ℚ) ∧
    (((renderIfVisible regionTwoFour 10 1000 0 500).1 = true ↔
        intersectsVisibleWindow (regionPixelStart regionTwoFour 10 1000)
          (regionPixelWidth regionTwoFour 10 1000) 0 500) ∧
      ((renderIfVisible regionTwoFour 10 1000 0 500).1 = false ↔
        ¬ intersectsVisibleWindow (regionPixelStart regionTwoFour 10 1000)
          (regionPixelWidth regionTwoFour 10 1000) 0 500) ∧
      ((renderIfVisible regionTwoFour 10 1000 0 500).2 =
        if (renderIfVisible regionTwoFour 10 1000 0 500).1
        then [DomOp.appendChild] else [DomOp.removeElement])) :=
  ⟨by decide, by decide, by decide, by decide,
    c7_attach_iff_intersects_visible_window regionTwoFour 10 1000 0 500
      (by decide) (by decide) (by decide) (by decide)⟩

/-- C8 counterexample: a region does not become silent after `remove()`.
Calling `play()` on the removed region still emits a `play` event (in
the source, `play()` is an unguarded `emit`), so "no further events of
any kind" is false. -/
theorem c8_counterexample :
    SingleRegion.play (SingleRegion.remove regionTwoFour).1 = [RegionEvent.play] ∧
    SingleRegion.play (SingleRegion.remove regionTwoFour).1 ≠ ([] : List RegionEvent) := by
  decide

/-- C8 (amended): `remove()` emits exactly one `remove` event, releases
all internal subscriptions, detaches and nulls the element, and the
collection handler drops the region from the collection and emits
`region-removed`; the plugin also unsubscribes its per-region listeners,
but the region object itself does not guard against further use — a
later `play()` call still emits. -/
theorem c8_remove_emits_once_and_collection_drops (r : Region) (st : PluginState) :
    (SingleRegion.remove r).2 = [RegionEvent.remove] ∧
    (SingleRegion.remove r).2.count RegionEvent.remove = 1 ∧
    (SingleRegion.remove r).1.activeSubscriptions = 0 ∧
    (SingleRegion.remove r).1.elementAlive = false ∧
    r ∉ (handleRegionRemoved st r).1.regions ∧
    (handleRegionRemoved st r).2 = [PluginEvent.regionRemoved r] := by
  refine ⟨rfl, rfl, rfl, rfl, ?_, rfl⟩
  intro hmem
  exact (of_decide_eq_true (List.mem_filter.mp hmem).2) rfl

/-- C9 counterexample: `getRegions()` returns the live internal array,
so pushing a marker through the returned reference changes the internal
collection, and a subsequent `timeupdate` tick emits a `region-in` for
the injected marker that the unmutated state would not emit. -/
def memOne : RegionsPluginMem :=
  { arrays := [[regionTwoFour]], regionsRef := 0 }

theorem c9_counterexample :
    internalRegions (writeThroughRef memOne (getRegions memOne)
        (fun l => l ++ [markerFive])) ≠ internalRegions memOne ∧
    (timeupdateStep (internalRegions (writeThroughRef memOne (getRegions memOne)
        (fun l => l ++ [markerFive]))) [] 5).1 ≠
      (timeupdateStep (internalRegions memOne) [] 5).1 := by
  decide

/-- C9 (amended): `getRegions()` returns `this.regions` by reference,
so any caller mutation performed through the returned structure is a
mutation of the internal collection of the manager: the collection the
manager subsequently operates on is exactly the mutated array. -/
theorem c9_getRegions_aliases_internal_state
    (st : RegionsPluginMem) (f : List Region → List Region)
    (href : st.regionsRef < st.arrays.length) :
    internalRegions (writeThroughRef st (getRegions st) f) = f (internalRegions st) := by
  unfold internalRegions writeThroughRef getRegions readArray
  simp [List.getD_eq_getElem?_getD, List.getElem?_set_self href]

/-- C9 witness: pushing a marker through the returned reference. -/
theorem c9_witness :
    memOne.regionsRef < memOne.arrays.length ∧
      internalRegions (writeThroughRef memOne (getRegions memOne)
          (fun l => l ++ [markerFive])) =
        internalRegions memOne ++ [markerFive] :=
  ⟨by decide, c9_getRegions_aliases_internal_state memOne (fun l => l ++ [markerFive])
    (by decide)⟩
